import Mathlib

/-!
Verification of the transcription core of `AI_Interview_System`
(`backend/interview/transcription_consumer.py`), shallowly embedded in Lean.

The embedding covers:
- the recognizer response data model (`StreamingRecognizeResponse` etc.),
- `TranscriptionConsumer.start_transcription`'s response loop, with its
  dedup/trim/filter logic and its exception structure,
- `TranscriptionConsumer.receive` (frame ingress),
- `request_generator` / `handle_audio` / `disconnect` as a small-step state
  machine over the handoff buffer and the stop flag,
- `send_transcript` / `broadcast_transcript` / channel-layer group fan-out,
- session initialisation (`__init__` + `connect`): username extraction and the
  hardcoded room group name.
-/

namespace AIInterview

/-- Python's `str.strip()` with no argument: remove leading and trailing
whitespace. Implemented over the underlying character list so the kernel can
evaluate it (Lean's own `String.trim` is not kernel-reducible). -/
def strip (s : String) : String :=
  ⟨((s.data.dropWhile Char.isWhitespace).reverse.dropWhile
      Char.isWhitespace).reverse⟩

/-- One recognition alternative (`speech.SpeechRecognitionAlternative`): we keep
only the `transcript` field, the only one the code reads. -/
structure SpeechRecognitionAlternative where
  transcript : String
deriving Repr, DecidableEq

/-- One streaming recognition result (`speech.StreamingRecognitionResult`):
`is_final` flag and the repeated `alternatives` field. -/
structure StreamingRecognitionResult where
  is_final : Bool
  alternatives : List SpeechRecognitionAlternative
deriving Repr, DecidableEq

/-- One response of the bidirectional stream (`speech.StreamingRecognizeResponse`):
a repeated `results` field. -/
structure StreamingRecognizeResponse where
  results : List StreamingRecognitionResult
deriving Repr, DecidableEq

/-- The `for response in responses:` loop of
`TranscriptionConsumer.start_transcription`, threading `last_final_transcript`.

```
for response in responses:
    if not response.results:
        continue
    result = response.results[0]
    if result.is_final:
        transcript = result.alternatives[0].transcript.strip()
        if transcript and transcript != last_final_transcript:
            last_final_transcript = transcript
            asyncio.run_coroutine_threadsafe(self.send_transcript(transcript), self.loop)
```

Returns the list of transcripts handed to `send_transcript`, in order, and a
flag that is `true` when the loop raised: `result.alternatives[0]` on an empty
repeated field raises `IndexError`, which the `except Exception` around the
loop catches, ending the loop. Transcripts already relayed before the raise
stay relayed, hence the prefix is kept. -/
def responseLoop : List StreamingRecognizeResponse → String → List String × Bool
  | [], _ => ([], false)
  | r :: rest, last =>
    match r.results with
    | [] => responseLoop rest last
    | result :: _ =>
      if result.is_final then
        match result.alternatives with
        | [] => ([], true)
        | alt :: _ =>
          let transcript := strip alt.transcript
          if transcript ≠ "" ∧ transcript ≠ last then
            let next := responseLoop rest transcript
            (transcript :: next.1, next.2)
          else
            responseLoop rest last
      else
        responseLoop rest last

/-- Outcome of the worker thread body `start_transcription`. `uncaught` is an
exception that escapes the function (terminating the thread), `caught` one that
reached the `except Exception` handler (logged, worker ends), `completed` a
normal end of the response stream; the `List String` is the sequence of
transcripts handed to the relay before the end. -/
inductive WorkerOutcome where
  | uncaught (e : String)
  | caught (e : String) (sent : List String)
  | completed (sent : List String)
deriving Repr, DecidableEq

/-- Embedding of `TranscriptionConsumer.start_transcription`, parameterised by the possible
failure of each external step. In the source, `credentials = ...` and
`client = speech.SpeechClient(...)` run before the `try:` block, so a failure
there escapes the function; `client.streaming_recognize(...)` and the response
loop run inside `try: ... except Exception`, so their failures are caught and
logged. No retry is attempted in any case. -/
def start_transcription (credLoad : Except String Unit)
    (clientInit : Except String Unit)
    (rpc : Except String (List StreamingRecognizeResponse)) : WorkerOutcome :=
  match credLoad with
  | .error e => .uncaught e
  | .ok _ =>
    match clientInit with
    | .error e => .uncaught e
    | .ok _ =>
      match rpc with
      | .error e => .caught e []
      | .ok responses =>
        let run := responseLoop responses ""
        if run.2 then .caught "IndexError: list index out of range" run.1
        else .completed run.1

/-- Frame ingress, `TranscriptionConsumer.receive`:

```
async def receive(self, text_data=None, bytes_data=None):
    if bytes_data:
        await self.audio_queue.put(bytes_data)
```

A frame is either text (`text_data` set) or binary (`bytes_data` set). Python
truthiness of `bytes_data` is: not `None` and not the empty byte string. Bytes
are modelled as `List Nat`. Returns the updated `audio_queue`. -/
def receive (text_data : Option String) (bytes_data : Option (List Nat))
    (audio_queue : List (List Nat)) : List (List Nat) :=
  match bytes_data with
  | some b => if b ≠ [] then audio_queue ++ [b] else audio_queue
  | none =>
    match text_data with
    | _ => audio_queue

/-! Section: Handoff buffer, stop flag and the worker's poll loop as a state machine

`request_generator` is:

```
def request_generator():
    while not self.stop_event.is_set():
        try:
            chunk = self.buffer.get(timeout=1)
            yield speech.StreamingRecognizeRequest(audio_content=chunk)
        except queue.Empty:
            continue
```

`handle_audio` moves a frame into `self.buffer` (`buffer.put(data)`), and
`disconnect` calls `self.stop_event.set()`. No code path in the module ever
calls `stop_event.clear()`. We model the interleaving of these three actors as
a sequence of atomic events acting on a session state. -/

/-- One atomic event of a session interleaving: `enqueue c` is
`handle_audio`'s `self.buffer.put(data)`, `setStop` is `disconnect`'s
`self.stop_event.set()`, and `poll` is one iteration of `request_generator`'s
`while` loop (the `is_set` check followed, when the loop continues, by one
`buffer.get(timeout=1)` attempt). -/
inductive SessionEvent where
  | enqueue (chunk : Nat)
  | setStop
  | poll
deriving Repr, DecidableEq

/-- State shared between the async side and the worker: `buffer` is
`self.buffer` (FIFO), `stop_event` the `threading.Event`, `exited` records that
`request_generator` has returned, and `yielded` the chunks emitted so far as
outbound `StreamingRecognizeRequest`s. -/
structure GenState where
  buffer : List Nat
  stop_event : Bool
  exited : Bool
  yielded : List Nat
deriving Repr, DecidableEq

/-- Initial session state: empty buffer, flag clear, generator running. -/
def initGen : GenState := ⟨[], false, false, []⟩

/-- Effect of one event on the session state. A `poll` when the generator has
already returned does nothing; otherwise it first evaluates
`self.stop_event.is_set()` — if set, the `while` exits (the buffer is NOT
drained) — and only otherwise attempts `buffer.get(timeout=1)`, yielding the
head chunk when one is present and timing out (`queue.Empty`, `continue`)
when the buffer is empty. -/
def stepGen (s : GenState) : SessionEvent → GenState
  | .enqueue c => { s with buffer := s.buffer ++ [c] }
  | .setStop => { s with stop_event := true }
  | .poll =>
    if s.exited then s
    else if s.stop_event then { s with exited := true }
    else
      match s.buffer with
      | [] => s
      | c :: rest => { s with buffer := rest, yielded := s.yielded ++ [c] }

/-- Run an interleaving of session events from the initial state. -/
def runGen (evs : List SessionEvent) : GenState :=
  evs.foldl stepGen initGen

/-! Section: Relay and group fan-out -/

/-- The event dict passed to `channel_layer.group_send` by `send_transcript`
(the `"type": "broadcast_transcript"` key is channels' handler routing and is
consumed by dispatch; the payload is `text` and `sender`). -/
structure GroupEvent where
  text : String
  sender : String
deriving Repr, DecidableEq

/-- Relay step `TranscriptionConsumer.send_transcript`: builds the group event from the
transcript text and the session's username. -/
def send_transcript (username text : String) : GroupEvent :=
  ⟨text, username⟩

/-- The outbound JSON text frame written by `broadcast_transcript`: an object
with exactly the keys `type`, `text`, `sender`, in that order. -/
structure OutFrame where
  type : String
  text : String
  sender : String
deriving Repr, DecidableEq

/-- Handler `TranscriptionConsumer.broadcast_transcript`: the per-subscriber handler,
turning a received group event into the outbound frame
`json.dumps({"type": "transcript", "text": event["text"], "sender": event["sender"]})`. -/
def broadcast_transcript (event : GroupEvent) : OutFrame :=
  ⟨"transcript", event.text, event.sender⟩

/-- The channel layer's `group_send`: delivers the event to every channel
currently registered in the group; each delivery invokes the member's
`broadcast_transcript` handler. Returns the (member, outbound frame) pairs. -/
def group_send (members : List String) (event : GroupEvent) :
    List (String × OutFrame) :=
  members.map fun m => (m, broadcast_transcript event)

/-! Section: Session initialisation -/

/-- The per-session fields set by `__init__` and `connect` that the claims
mention: `username` and `room_group_name`. -/
structure SessionState where
  username : String
  room_group_name : String
deriving Repr, DecidableEq

/-- Constructor `TranscriptionConsumer.__init__`: `self.username = "Anonymous"`,
`self.room_group_name = "transcription_room"` — the group name is a fixed
literal, independent of any connection parameter. -/
def initSession : SessionState :=
  ⟨"Anonymous", "transcription_room"⟩

/-- Connection setup `TranscriptionConsumer.connect`, its state update:
`query_params.get("username", ["Anonymous"])[0]` — the first value bound to
the `username` query key, defaulting to `"Anonymous"`. `room_group_name` is
not touched by `connect`. -/
def connect (query_params : List (String × String)) (s : SessionState) :
    SessionState :=
  { s with
    username :=
      (((query_params.filter (fun p => p.1 = "username")).head?).map
        (fun p => p.2)).getD "Anonymous" }

/-! Section: Spec-side definitions for the relayed-sequence refinement claim -/

/-- Remove immediately consecutive exact-text duplicates, keeping the first
element of each run. This is the spec's description of the dedup step. -/
def dropConsecutiveDups : List String → List String
  | [] => []
  | [x] => [x]
  | x :: y :: rest =>
    if x = y then dropConsecutiveDups (y :: rest)
    else x :: dropConsecutiveDups (y :: rest)

/-- The broadcast sequence the spec sentence predicts for final results
`R1..Rn`: each transcript whitespace-trimmed, then immediately consecutive
exact-text duplicates removed. Stated from the spec's words, to be compared
with the code's behaviour. -/
def specRelayed (finals : List String) : List String :=
  dropConsecutiveDups (finals.map strip)

/-- A response carrying exactly one final result with one alternative: the
shape in which the recognizer delivers a final transcript to the worker. -/
def mkFinalResponse (t : String) : StreamingRecognizeResponse :=
  ⟨[⟨true, [⟨t⟩]⟩]⟩

/-- The sequence of transcripts the code hands to the relay when the worker
receives exactly the final results `R1..Rn`. -/
def codeRelayed (finals : List String) : List String :=
  (responseLoop (finals.map mkFinalResponse) "").1

/-- Helper capturing the transcript-level behaviour of the response loop on a
stream of already-trimmed final transcripts, threading `last_final_transcript`:
`if transcript and transcript != last_final_transcript`. -/
def emitsFrom : List String → String → List String
  | [], _ => []
  | t :: ts, last =>
    if t ≠ "" ∧ t ≠ last then t :: emitsFrom ts t
    else emitsFrom ts last

/-- Helper: consecutive dedup relative to a previously emitted element. -/
def dedupFrom : String → List String → List String
  | _, [] => []
  | last, x :: xs =>
    if x = last then dedupFrom last xs
    else x :: dedupFrom x xs

/-! Section: Helper lemmas -/

/-- On a stream of single-final-single-alternative responses the response loop
never raises and emits according to `emitsFrom` over the trimmed texts. -/
theorem responseLoop_map_finals (R : List String) (last : String) :
    responseLoop (R.map mkFinalResponse) last =
      (emitsFrom (R.map strip) last, false) := by
  induction R generalizing last with
  | nil => rfl
  | cons t ts ih =>
    simp only [List.map_cons, mkFinalResponse, responseLoop, emitsFrom]
    by_cases h : strip t ≠ "" ∧ strip t ≠ last
    · simp [h, ih]
    · simp [h, ih]

/-- Empty transcripts are no-ops for the loop: emission equals consecutive
dedup (relative to the running last emission) of the nonempty transcripts. -/
theorem emitsFrom_eq_dedupFrom_filter (ts : List String) (last : String) :
    emitsFrom ts last = dedupFrom last (ts.filter (fun t => t ≠ "")) := by
  induction ts generalizing last with
  | nil => rfl
  | cons t ts ih =>
    by_cases ht : t = ""
    · subst ht
      simp [emitsFrom, ih]
    · by_cases hl : t = last
      · subst hl
        simp [emitsFrom, dedupFrom, ht, List.filter_cons, ih]
      · simp [emitsFrom, dedupFrom, ht, hl, List.filter_cons, ih]

/-- Seeding lemma: `dedupFrom` seeded with the element just emitted agrees with the spec's
consecutive-duplicate removal. -/
theorem cons_dedupFrom_eq_dropConsecutiveDups (xs : List String) (x : String) :
    x :: dedupFrom x xs = dropConsecutiveDups (x :: xs) := by
  induction xs generalizing x with
  | nil => rfl
  | cons y ys ih =>
    by_cases h : y = x
    · subst h
      simp only [dedupFrom, if_pos rfl, dropConsecutiveDups, if_pos rfl]
      exact ih y
    · simp only [dedupFrom, dropConsecutiveDups]
      rw [if_neg h, if_neg (Ne.symm h)]
      exact congrArg (x :: ·) (ih y)

/-- Once the generator has exited, no event changes `yielded` (no chunk is
ever emitted again) and `exited` stays set. -/
theorem stepGen_after_exited (s : GenState) (e : SessionEvent)
    (hex : s.exited = true) :
    (stepGen s e).yielded = s.yielded ∧ (stepGen s e).exited = true := by
  cases e with
  | enqueue c => exact ⟨rfl, hex⟩
  | setStop => exact ⟨rfl, hex⟩
  | poll => simp [stepGen, hex]

/-- Lifting of `stepGen_after_exited` to whole event sequences. -/
theorem foldl_after_exited (evs : List SessionEvent) (s : GenState)
    (hex : s.exited = true) :
    (evs.foldl stepGen s).yielded = s.yielded := by
  induction evs generalizing s with
  | nil => rfl
  | cons e evs ih =>
    have h := stepGen_after_exited s e hex
    simpa [List.foldl_cons, h.1] using ih (stepGen s e) h.2

/-! Section: Claim theorems -/

/-- C1, counterexample: a final result whose transcript is whitespace-only
refutes the claimed equality. The claim predicts that the broadcast sequence
for finals `["  "]` is the trimmed, consecutively-deduplicated `[""]`; the
code (`if transcript and ...`) additionally drops transcripts that are empty
after trimming and broadcasts nothing. -/
theorem claim1_counterexample :
    codeRelayed ["  "] = [] ∧ specRelayed ["  "] = [""] ∧
      codeRelayed ["  "] ≠ specRelayed ["  "] := by
  refine ⟨rfl, rfl, ?_⟩
  decide

/-- C1, amended: for every sequence of final results `R1..Rn` delivered by the
recognizer to the worker, the sequence of transcripts handed to the relay
equals `R1..Rn` with each transcript whitespace-trimmed, transcripts that are
empty after trimming removed, and immediately consecutive exact-text
duplicates removed. -/
theorem claim1_relayed_eq_trim_filter_dedup (R : List String) :
    codeRelayed R =
      dropConsecutiveDups ((R.map strip).filter (fun t => t ≠ "")) := by
  unfold codeRelayed
  rw [responseLoop_map_finals, emitsFrom_eq_dedupFrom_filter]
  cases hf : (R.map strip).filter (fun t => t ≠ "") with
  | nil => rfl
  | cons y ys =>
    have hy : y ≠ "" := by
      have hmem : y ∈ (R.map strip).filter (fun t => t ≠ "") := by
        rw [hf]; exact List.mem_cons_self y ys
      simpa using List.of_mem_filter hmem
    rw [dedupFrom, if_neg hy]
    exact cons_dedupFrom_eq_dropConsecutiveDups ys y

/-- C1 scenario check (part of the claim that does hold): finals
`["hello there", "hello there", "how are you"]` broadcast exactly
`["hello there", "how are you"]`. Kept as a helper fact, not a claim status. -/
theorem codeRelayed_scenario :
    codeRelayed ["hello there", "hello there", "how are you"] =
      ["hello there", "how are you"] := by
  decide

/-- C2, counterexample: a response whose first result is final with zero
alternatives does not make the worker "skip and continue". The claim predicts
that the following final `"hi"` is still broadcast; instead
`result.alternatives[0]` raises `IndexError`, the loop aborts (exception flag
`true`) and nothing is broadcast. -/
theorem claim2_counterexample :
    responseLoop [⟨[⟨true, []⟩]⟩, mkFinalResponse "hi"] "" = ([], true) := rfl

/-- C2, amended: a response whose first result is final with zero alternatives
raises an error (`IndexError` from `result.alternatives[0]`) that is caught by
the worker's exception handler; the worker loop terminates and no broadcast is
produced for that result or for any subsequent response. -/
theorem claim2_zero_alternatives_aborts
    (rest : List StreamingRecognitionResult)
    (responses : List StreamingRecognizeResponse) :
    start_transcription (.ok ()) (.ok ())
        (.ok (⟨⟨true, []⟩ :: rest⟩ :: responses)) =
      .caught "IndexError: list index out of range" [] := rfl

/-- C3, counterexample: a credential-load failure is not caught inside the
worker — `service_account.Credentials.from_service_account_file` runs before
the `try:` block, so the exception escapes `start_transcription` uncaught,
refuting "every failure arising in the worker's execution ... is caught and
logged inside the worker". -/
theorem claim3_counterexample :
    start_transcription (.error "key.json missing") (.ok ()) (.ok []) =
      .uncaught "key.json missing" := rfl

/-- C3, amended: failures of the RPC call and response iteration (inside the
`try:` block) are caught inside the worker, aborting it for this session only
with no retry; credential-load and client-construction failures, which run
before the `try:` block, escape the worker function uncaught (terminating only
the worker thread). Normal processing never ends in an uncaught exception. -/
theorem claim3_failure_containment (e : String) (c : Except String Unit)
    (r : Except String (List StreamingRecognizeResponse))
    (rs : List StreamingRecognizeResponse) (msg : String) :
    start_transcription (.error e) c r = .uncaught e ∧
    start_transcription (.ok ()) (.error e) r = .uncaught e ∧
    start_transcription (.ok ()) (.ok ()) (.error e) = .caught e [] ∧
    start_transcription (.ok ()) (.ok ()) (.ok rs) ≠ .uncaught msg := by
  refine ⟨rfl, rfl, rfl, ?_⟩
  simp only [start_transcription]
  cases h : (responseLoop rs "").2 <;> simp [h]

/-- C4, counterexample: the interleaving "enqueue chunk 7, set the stop flag,
worker polls" loses chunk 7 — the enqueue happens before the flag is set and
before the worker observes it, yet the poll observes the flag first, the
generator exits, and the chunk is never emitted (it stays in the buffer of a
returned generator forever). -/
theorem claim4_counterexample :
    (runGen [.enqueue 7, .setStop, .poll]).yielded = [] ∧
      (runGen [.enqueue 7, .setStop, .poll]).exited = true ∧
      (runGen [.enqueue 7, .setStop, .poll]).buffer = [7] := ⟨rfl, rfl, rfl⟩

/-- C4, amended: a chunk enqueued before the cancel flag is set is emitted only
if the worker dequeues it before observing the flag: while the flag is unset
and the generator runs, a poll dequeues and emits the head chunk; but once the
generator has observed the flag and exited, no subsequent events ever emit
anything (chunks still in the buffer are lost). -/
theorem claim4_drain_before_observation (s : GenState)
    (evs : List SessionEvent) (c : Nat) (rest : List Nat) :
    (s.exited = false → s.stop_event = false → s.buffer = c :: rest →
      stepGen s .poll = { s with buffer := rest, yielded := s.yielded ++ [c] }) ∧
    (s.exited = true → (evs.foldl stepGen s).yielded = s.yielded) := by
  constructor
  · intro hex hstop hbuf
    simp [stepGen, hex, hstop, hbuf]
  · intro hex
    exact foldl_after_exited evs s hex

/-- C4 witness: both conjuncts of the amended claim at concrete states. -/
theorem claim4_witness :
    stepGen ⟨[5, 6], false, false, []⟩ .poll = ⟨[6], false, false, [5]⟩ ∧
      (([SessionEvent.enqueue 9, .poll, .poll].foldl stepGen
        ⟨[7], true, true, []⟩).yielded = []) := by
  refine ⟨?_, ?_⟩
  · exact (claim4_drain_before_observation ⟨[5, 6], false, false, []⟩ [] 5 [6]).1
      rfl rfl rfl
  · exact (claim4_drain_before_observation ⟨[7], true, true, []⟩
      [SessionEvent.enqueue 9, .poll, .poll] 0 []).2 rfl

/-- C5: the cancel signal is one-shot and monotone — no session event ever
unsets `stop_event` once set (`disconnect` only calls `set()`, nothing calls
`clear()`) — and once it is set, the very next poll of the worker's timed
dequeue loop exits the generator, even with an empty buffer: the `while`
condition is re-checked after at most one `buffer.get(timeout=1)` interval. -/
theorem claim5_cancel_monotone_prompt_exit (s : GenState) (e : SessionEvent) :
    (s.stop_event = true → (stepGen s e).stop_event = true) ∧
    (s.stop_event = true → (stepGen s .poll).exited = true) := by
  constructor
  · intro h
    cases e with
    | enqueue c => exact h
    | setStop => rfl
    | poll =>
      simp only [stepGen]
      by_cases hex : s.exited <;> simp [hex, h]
  · intro h
    simp only [stepGen]
    by_cases hex : s.exited <;> simp [hex, h]

/-- C5 witness: at a running state with the flag set and an empty buffer, a
poll keeps the flag set and exits the loop. -/
theorem claim5_witness :
    (stepGen ⟨[], true, false, []⟩ .poll).stop_event = true ∧
      (stepGen ⟨[], true, false, []⟩ .poll).exited = true :=
  ⟨(claim5_cancel_monotone_prompt_exit ⟨[], true, false, []⟩ .poll).1 rfl,
   (claim5_cancel_monotone_prompt_exit ⟨[], true, false, []⟩ .poll).2 rfl⟩

/-- C6: a recognizer result not marked final never produces a broadcast — in
any response sequence, a response whose first result has the final flag unset
is a complete no-op: nothing is relayed for it, the duplicate-suppression
state is unchanged, and the remaining responses are processed exactly as if
it were absent. Hence only results whose final flag is set can cause a
transcript to be relayed. -/
theorem claim6_nonfinal_never_broadcast (res : StreamingRecognitionResult)
    (rest : List StreamingRecognitionResult)
    (responses : List StreamingRecognizeResponse) (last : String)
    (h : res.is_final = false) :
    responseLoop (⟨res :: rest⟩ :: responses) last =
      responseLoop responses last := by
  simp [responseLoop, h]

/-- C6 witness: inside a mixed stream, a non-final result with a nonempty,
non-duplicate transcript is skipped and the following final is processed as
if the non-final response were absent. -/
theorem claim6_witness :
    responseLoop [⟨[⟨false, [⟨"interim words"⟩]⟩]⟩, mkFinalResponse "hi"] "" =
      responseLoop [mkFinalResponse "hi"] "" :=
  claim6_nonfinal_never_broadcast ⟨false, [⟨"interim words"⟩]⟩ []
    [mkFinalResponse "hi"] "" rfl

/-- C7, counterexample: an empty binary frame is a binary frame but is never
enqueued — `if bytes_data:` is false for the empty byte string, so the claim
"a binary frame is enqueued into the session's handoff path" fails at
`bytes_data = b""` (the enqueue the claim predicts would leave `[[]]`). -/
theorem claim7_counterexample :
    receive none (some []) [] = [] ∧ receive none (some []) [] ≠ [[]] := by
  exact ⟨rfl, by decide⟩

/-- C7, amended: a nonempty binary frame is enqueued into the session's
handoff path (appended to `audio_queue`); a text control frame and an empty
binary frame are discarded and never enqueued. -/
theorem claim7_ingress (q : List (List Nat)) (b : List Nat) (t : String)
    (hb : b ≠ []) :
    receive none (some b) q = q ++ [b] ∧
    receive (some t) none q = q ∧
    receive none (some []) q = q := by
  refine ⟨?_, rfl, rfl⟩
  simp [receive, hb]

/-- C7 witness: a one-byte frame is enqueued; a ping text frame and the empty
binary frame are not. -/
theorem claim7_witness :
    receive none (some [1]) [[0]] = [[0], [1]] ∧
      receive (some "ping") none [[0]] = [[0]] ∧
      receive none (some []) [[0]] = [[0]] :=
  claim7_ingress [[0]] [1] "ping" (by decide)

/-- C8: every finalized, deduplicated transcript is delivered to every channel
subscribed to the group at publish time — including the originating channel —
as a frame with exactly the fields `type = "transcript"`, `text` = the
finalized text, `sender` = the originator's username; one message per
subscriber per transcript (fan-out size equals subscriber count). -/
theorem claim8_fanout_delivery (members : List String)
    (origin user t : String) (h : origin ∈ members) :
    (origin, OutFrame.mk "transcript" t user) ∈
        group_send members (send_transcript user t) ∧
    (∀ p ∈ group_send members (send_transcript user t),
        p.2 = OutFrame.mk "transcript" t user) ∧
    (group_send members (send_transcript user t)).length = members.length := by
  refine ⟨?_, ?_, by simp [group_send]⟩
  · simp only [group_send, List.mem_map]
    exact ⟨origin, h, rfl⟩
  · intro p hp
    simp only [group_send, List.mem_map] at hp
    obtain ⟨m, _, hm⟩ := hp
    rw [← hm]
    rfl

/-- C8 witness: with the originator's channel among two subscribers, the
originator receives its own transcript frame, every delivered frame is that
frame, and exactly two messages go out. -/
theorem claim8_witness :
    ("ch1", OutFrame.mk "transcript" "hi all" "alice") ∈
        group_send ["ch1", "ch2"] (send_transcript "alice" "hi all") ∧
      (∀ p ∈ group_send ["ch1", "ch2"] (send_transcript "alice" "hi all"),
        p.2 = OutFrame.mk "transcript" "hi all" "alice") ∧
      (group_send ["ch1", "ch2"] (send_transcript "alice" "hi all")).length =
        (["ch1", "ch2"] : List String).length :=
  claim8_fanout_delivery ["ch1", "ch2"] "ch1" "alice" "hi all"
    (by decide)

/-- C9: every session, whatever its connection query parameters, gets the same
hardcoded group key `"transcription_room"` (set in `__init__`, never changed by
`connect`), so any two concurrently active sessions share one group and each
receives the other's finalized transcripts through the group fan-out. -/
theorem claim9_shared_group (q1 q2 : List (String × String))
    (members : List String) (other user t : String) (h : other ∈ members) :
    (connect q1 initSession).room_group_name = "transcription_room" ∧
    (connect q1 initSession).room_group_name =
      (connect q2 initSession).room_group_name ∧
    (other, broadcast_transcript (send_transcript user t)) ∈
      group_send members (send_transcript user t) := by
  refine ⟨rfl, rfl, ?_⟩
  simp only [group_send, List.mem_map]
  exact ⟨other, h, rfl⟩

/-- C9 witness: two sessions with distinct usernames share the group key, and
the second session's channel receives the first session's transcript. -/
theorem claim9_witness :
    (connect [("username", "alice")] initSession).room_group_name =
        "transcription_room" ∧
      (connect [("username", "alice")] initSession).room_group_name =
        (connect [("username", "bob")] initSession).room_group_name ∧
      ("bobChannel", broadcast_transcript (send_transcript "alice" "hi")) ∈
        group_send ["aliceChannel", "bobChannel"]
          (send_transcript "alice" "hi") :=
  claim9_shared_group [("username", "alice")] [("username", "bob")]
    ["aliceChannel", "bobChannel"] "bobChannel" "alice" "hi" (by decide)

/-- C10: the worker reads only `response.results[0]` — replacing everything
after the first result of a response by anything else (in particular by extra
final results) changes neither the broadcast sequence nor the threaded
duplicate-suppression state nor the exception flag. -/
theorem claim10_only_first_result (res : StreamingRecognitionResult)
    (rest rest2 : List StreamingRecognitionResult)
    (responses : List StreamingRecognizeResponse) (last : String) :
    responseLoop (⟨res :: rest⟩ :: responses) last =
      responseLoop (⟨res :: rest2⟩ :: responses) last := rfl

end AIInterview
